import Mathlib

/-!
Verification development for the Sayinvoice invoice generator.

The TypeScript sources are shallowly embedded here:
* JS numbers carrying money amounts, rates and timestamps are modelled as `ℚ`
  (respectively `ℤ` for integer timestamps used as item ids); the arithmetic
  pipeline of the app applies no rounding, so exact rational arithmetic mirrors
  it faithfully away from float rounding.
* JS strings are Lean `String`s; `trim`, `replace`, `substring`, `padStart`,
  `parseInt` and `toString(16)` are given explicit executable models below.
* Fallible or environment-dependent steps (localStorage content, JSON parsing,
  the PDF pipeline, the finiteness of a JS number) are made explicit inputs.
-/

namespace Sayinvoice

/-- Embedding of `Business` from `types.ts`. -/
structure Business where
  name : String
  address : String
  email : String
deriving DecidableEq

/-- Embedding of `Client` from `types.ts` (same shape as `Business`, independent type). -/
structure Client where
  name : String
  address : String
  email : String
deriving DecidableEq

/-- Embedding of `Item` from `types.ts`. `id` is a JS number holding an integer
timestamp, modelled as `ℤ`; `quantity` and `price` are JS numbers modelled as `ℚ`. -/
structure Item where
  id : ℤ
  description : String
  quantity : ℚ
  price : ℚ
  hsn : String
deriving DecidableEq

/-- Embedding of `BankDetails` from `types.ts`; `upiId?` is optional. -/
structure BankDetails where
  name : String
  accountNumber : String
  bankName : String
  ifscCode : String
  upiId : Option String
deriving DecidableEq

/-- Embedding of the `InvoiceType` union from `types.ts`. -/
inductive InvoiceType where
  | invoice
  | taxInvoice
  | quotation
  | proformaInvoice
  | estimate
deriving DecidableEq

/-- Embedding of the `Currency` union from `types.ts`. -/
inductive Currency where
  | INR
  | USD
  | EUR
  | GBP
deriving DecidableEq

/-- Embedding of `Invoice` from `types.ts`; `logo` is nullable. -/
structure Invoice where
  logo : Option String
  invoiceType : InvoiceType
  invoiceNumber : String
  date : String
  dueDate : String
  business : Business
  client : Client
  items : List Item
  cgstRate : ℚ
  sgstRate : ℚ
  igstRate : ℚ
  taxRate : ℚ
  discountRate : ℚ
  currency : Currency
  bankDetails : BankDetails
  notes : String
  themeColor : String
deriving DecidableEq

/-- Embedding of `DEFAULT_THEME_COLOR` (App, line 12). -/
def DEFAULT_THEME_COLOR : String := "#10B981"

/-- Embedding of `getInitialInvoiceState` (App, lines 14-42). -/
def getInitialInvoiceState : Invoice :=
  { logo := none
    invoiceType := .invoice
    invoiceNumber := ""
    date := ""
    dueDate := ""
    business := { name := "", address := "", email := "" }
    client := { name := "", address := "", email := "" }
    items := [{ id := 1, description := "", quantity := 0, price := 0, hsn := "" }]
    cgstRate := 0
    sgstRate := 0
    igstRate := 0
    taxRate := 0
    discountRate := 0
    currency := .INR
    bankDetails :=
      { name := "", accountNumber := "", bankName := "", ifscCode := "", upiId := none }
    notes := ""
    themeColor := DEFAULT_THEME_COLOR }

/-- A parsed draft object: the `Invoice` shape with every top-level field optional,
modelling a JSON object saved by an older schema that may miss fields.  A parse
result that is not an object behaves like the all-`none` value (spreading a
non-object contributes no fields). -/
structure PartialInvoice where
  logo : Option (Option String)
  invoiceType : Option InvoiceType
  invoiceNumber : Option String
  date : Option String
  dueDate : Option String
  business : Option Business
  client : Option Client
  items : Option (List Item)
  cgstRate : Option ℚ
  sgstRate : Option ℚ
  igstRate : Option ℚ
  taxRate : Option ℚ
  discountRate : Option ℚ
  currency : Option Currency
  bankDetails : Option BankDetails
  notes : Option String
  themeColor : Option String
deriving DecidableEq

/-- Outcome of `localStorage.getItem` + `JSON.parse` in `loadInitialState`:
nothing stored, stored but failing to parse (the `catch` branch), or parsed. -/
inductive StoredDraft where
  | absent
  | corrupt
  | parsed (p : PartialInvoice)

/-- JS truthiness fallback `x || d` for a possibly-missing string field:
`undefined` and the empty string are falsy. -/
def jsOrString (x : Option String) (d : String) : String :=
  match x with
  | none => d
  | some s => if s = "" then d else s

/-- Embedding of `loadInitialState` (App, lines 44-58).  The object spread
`{ ...defaults, ...parsed, themeColor: parsed.themeColor || DEFAULT_THEME_COLOR }`
is written out field by field over the `Invoice` shape. -/
def loadInitialState (stored : StoredDraft) : Invoice :=
  match stored with
  | .absent => getInitialInvoiceState
  | .corrupt => getInitialInvoiceState
  | .parsed p =>
    let defaults := getInitialInvoiceState
    { logo := p.logo.getD defaults.logo
      invoiceType := p.invoiceType.getD defaults.invoiceType
      invoiceNumber := p.invoiceNumber.getD defaults.invoiceNumber
      date := p.date.getD defaults.date
      dueDate := p.dueDate.getD defaults.dueDate
      business := p.business.getD defaults.business
      client := p.client.getD defaults.client
      items := p.items.getD defaults.items
      cgstRate := p.cgstRate.getD defaults.cgstRate
      sgstRate := p.sgstRate.getD defaults.sgstRate
      igstRate := p.igstRate.getD defaults.igstRate
      taxRate := p.taxRate.getD defaults.taxRate
      discountRate := p.discountRate.getD defaults.discountRate
      currency := p.currency.getD defaults.currency
      bankDetails := p.bankDetails.getD defaults.bankDetails
      notes := p.notes.getD defaults.notes
      themeColor := jsOrString p.themeColor DEFAULT_THEME_COLOR }

/-- Shallow merge of parsed fields over the defaults, written from the spec words
"shallow-merge parsed fields over the defaults (so any field missing from an
older saved shape is backfilled)"; used to compare `loadInitialState` against
the specified behaviour. -/
def mergeOverDefaults (d : Invoice) (p : PartialInvoice) : Invoice :=
  { logo := p.logo.getD d.logo
    invoiceType := p.invoiceType.getD d.invoiceType
    invoiceNumber := p.invoiceNumber.getD d.invoiceNumber
    date := p.date.getD d.date
    dueDate := p.dueDate.getD d.dueDate
    business := p.business.getD d.business
    client := p.client.getD d.client
    items := p.items.getD d.items
    cgstRate := p.cgstRate.getD d.cgstRate
    sgstRate := p.sgstRate.getD d.sgstRate
    igstRate := p.igstRate.getD d.igstRate
    taxRate := p.taxRate.getD d.taxRate
    discountRate := p.discountRate.getD d.discountRate
    currency := p.currency.getD d.currency
    bankDetails := p.bankDetails.getD d.bankDetails
    notes := p.notes.getD d.notes
    themeColor := p.themeColor.getD d.themeColor }

/-- The record returned by the `calculations` memo (App, line 174). -/
structure Totals where
  subtotal : ℚ
  discountAmount : ℚ
  taxAmount : ℚ
  total : ℚ
  cgstAmount : ℚ
  sgstAmount : ℚ
  igstAmount : ℚ
  genericTaxAmount : ℚ
deriving DecidableEq

/-- Embedding of the `calculations` memo body (App, lines 163-175). -/
def calculations (inv : Invoice) : Totals :=
  let subtotal := inv.items.foldl (fun acc item => acc + item.quantity * item.price) 0
  let discountAmount := subtotal * (inv.discountRate / 100)
  let taxableAmount := subtotal - discountAmount
  let cgstAmount := taxableAmount * (inv.cgstRate / 100)
  let sgstAmount := taxableAmount * (inv.sgstRate / 100)
  let igstAmount := taxableAmount * (inv.igstRate / 100)
  let genericTaxAmount := taxableAmount * (inv.taxRate / 100)
  let taxAmount := cgstAmount + sgstAmount + igstAmount + genericTaxAmount
  let total := taxableAmount + taxAmount
  { subtotal := subtotal
    discountAmount := discountAmount
    taxAmount := taxAmount
    total := total
    cgstAmount := cgstAmount
    sgstAmount := sgstAmount
    igstAmount := igstAmount
    genericTaxAmount := genericTaxAmount }

/-- The fresh `Item` literal minted by `handleAddItem` (App, lines 102-108);
`now` stands for `new Date().getTime()`. -/
def newItemAt (now : ℤ) : Item :=
  { id := now, description := "", quantity := 0, price := 0, hsn := "" }

/-- Embedding of `handleAddItem` (App, lines 101-110):
`handleInvoiceChange('items', [...invoice.items, newItem])`. -/
def handleAddItem (now : ℤ) (inv : Invoice) : Invoice :=
  { inv with items := inv.items ++ [newItemAt now] }

/-- Embedding of `handleRemoveItem` (App, lines 112-115):
`invoice.items.filter(item => item.id !== id)`. -/
def handleRemoveItem (targetId : ℤ) (inv : Invoice) : Invoice :=
  { inv with items := inv.items.filter (fun item => item.id != targetId) }

/-- Embedding of `handleItemChange` (App, lines 95-99): copy the array and
replace position `index`.  The source assumes `index` is within bounds (spec:
out-of-range is a programming error); `List.set` models the in-bounds case. -/
def handleItemChange (index : ℕ) (updatedItem : Item) (inv : Invoice) : Invoice :=
  { inv with items := inv.items.set index updatedItem }

/-- Pairwise distinctness of the `id` fields of an item sequence. -/
def UniqueIds (l : List Item) : Prop :=
  (l.map Item.id).Nodup

instance decidableUniqueIds (l : List Item) : Decidable (UniqueIds l) :=
  inferInstanceAs (Decidable (List.Nodup _))

/-- One well-behaved mutation of the items sequence: an `addItem` whose minted
timestamp differs from every current id, any `removeItem`, or an in-bounds
`updateItem` that keeps the replaced item's id.  An `updateField` on any field
other than `items` leaves the sequence untouched and is covered by reflexivity
of the transitive closure. -/
inductive GoodStep : List Item → List Item → Prop where
  | add (l : List Item) (now : ℤ) (h : ∀ item ∈ l, item.id ≠ now) :
      GoodStep l (l ++ [newItemAt now])
  | remove (l : List Item) (targetId : ℤ) :
      GoodStep l (l.filter (fun item => item.id != targetId))
  | update (l : List Item) (index : ℕ) (updatedItem : Item) (h : index < l.length)
      (hid : updatedItem.id = (l.get ⟨index, h⟩).id) :
      GoodStep l (l.set index updatedItem)

/-- Whitespace predicate used to model JS `String.prototype.trim` (space, tab,
line feed, carriage return cover every character the app ever produces). -/
def jsWS (c : Char) : Bool :=
  c == ' ' || c == '\t' || c == '\n' || c == '\r'

/-- List-level trim: drop whitespace from the front, then from the back. -/
def trimList (l : List Char) : List Char :=
  ((l.dropWhile jsWS).reverse.dropWhile jsWS).reverse

/-- Model of JS `s.trim()`. -/
def jsTrim (s : String) : String :=
  String.mk (trimList s.data)

/-- The two feedback categories of `showFeedback` (App, lines 117-120). -/
inductive FeedbackType where
  | success
  | feedbackError
deriving DecidableEq

/-- Observable outcome of one invocation of `handleDownloadPdf`: the feedback
notice shown (if any), whether the asynchronous `generatePdfBlob` pipeline was
entered, whether a file download was triggered, and the invoice afterwards. -/
structure PdfAttempt where
  feedback : Option (String × FeedbackType)
  startedPdfGeneration : Bool
  fileProduced : Bool
  finalInvoice : Invoice
deriving DecidableEq

/-- Embedding of `handleDownloadPdf` (App, lines 218-236).  `blobOk` abstracts
whether the awaited `generatePdfBlob` call returns a blob (`true`) or `null`
after an internal failure (`false`, in which case `generatePdfBlob` itself has
already shown the failure notice, App lines 211-215).  The handler never
touches the invoice state. -/
def handleDownloadPdf (inv : Invoice) (blobOk : Bool) : PdfAttempt :=
  if jsTrim inv.invoiceNumber = "" then
    { feedback := some ("Invoice number cannot be empty.", .feedbackError)
      startedPdfGeneration := false
      fileProduced := false
      finalInvoice := inv }
  else
    { feedback := if blobOk then none else some ("Failed to generate PDF. Please try again.", .feedbackError)
      startedPdfGeneration := true
      fileProduced := blobOk
      finalInvoice := inv }

/-- The `ones` table of `toWords` (InvoicePreview, line 363). -/
def onesWords : List String :=
  ["", "one", "two", "three", "four", "five", "six", "seven", "eight", "nine",
   "ten", "eleven", "twelve", "thirteen", "fourteen", "fifteen", "sixteen",
   "seventeen", "eighteen", "nineteen"]

/-- The `tens` table of `toWords` (InvoicePreview, line 364). -/
def tensWords : List String :=
  ["", "", "twenty", "thirty", "forty", "fifty", "sixty", "seventy", "eighty", "ninety"]

/-- Embedding of `convertLessThanOneThousand` (InvoicePreview, lines 366-384).
A JS out-of-bounds array read yields `undefined`, which string concatenation
renders as `"undefined"`; `List.getD` with that default models it exactly. -/
def convertLessThanOneThousand (n : ℕ) : String :=
  let part1 : String :=
    if 100 ≤ n then
      onesWords.getD (n / 100) "undefined" ++ " hundred" ++
        (if 0 < n % 100 then " and " else "")
    else ""
  let m : ℕ := if 100 ≤ n then n % 100 else n
  let part2 : String :=
    if 0 < m then
      if m < 20 then onesWords.getD m "undefined"
      else
        tensWords.getD (m / 10) "undefined" ++
          (if 0 < m % 10 then " " ++ onesWords.getD (m % 10) "undefined" else "")
    else ""
  part1 ++ part2

/-- Model of `Array.prototype.join(' ')` on the `wordsArray`. -/
def joinSpace : List String → String
  | [] => ""
  | [s] => s
  | s :: rest => s ++ " " ++ joinSpace rest

/-- Embedding of the rupee-grouping loop of `toWords` (InvoicePreview, lines
393-414): split `numberPart` into crore / lakh / thousand / remainder groups,
convert each nonzero group, and join with single spaces. -/
def rupeesWords (numberPart : ℕ) : String :=
  let crore := numberPart / 10000000
  let t1 := if 0 < crore then numberPart % 10000000 else numberPart
  let lakh := t1 / 100000
  let t2 := if 0 < lakh then t1 % 100000 else t1
  let thousand := t2 / 1000
  let t3 := if 0 < thousand then t2 % 1000 else t2
  let parts : List String :=
    (if 0 < crore then [convertLessThanOneThousand crore ++ " crore"] else []) ++
    (if 0 < lakh then [convertLessThanOneThousand lakh ++ " lakh"] else []) ++
    (if 0 < thousand then [convertLessThanOneThousand thousand ++ " thousand"] else []) ++
    (if 0 < t3 then [convertLessThanOneThousand t3] else [])
  joinSpace parts

/-- Model of `s.charAt(0).toUpperCase() + s.slice(1)`. -/
def capFirst (s : String) : String :=
  match s.data with
  | [] => ""
  | c :: cs => String.mk (Char.toUpper c :: cs)

/-- A JS number argument to `toWords`: non-finite values are distinguished so
that the `isFinite` guard can be modelled; finite values are exact rationals. -/
inductive JSAmount where
  | nan
  | posInf
  | negInf
  | fin (q : ℚ)

/-- Truth value of JS `isFinite` on a `JSAmount`. -/
def JSAmount.isFiniteAmt : JSAmount → Bool
  | .nan => false
  | .posInf => false
  | .negInf => false
  | .fin _ => true

/-- Embedding of the body of `toWords` after the `isFinite` and sign guards
(InvoicePreview, lines 386-430), for a non-negative finite amount `q`:
`numberPart = Math.floor(num)`, `decimalPart = Math.round((num - numberPart) * 100)`
(JS `Math.round` is floor of the argument plus one half on non-negatives). -/
def toWordsNonneg (q : ℚ) : String :=
  let numberPart : ℕ := (Rat.floor q).toNat
  let decimalPart : ℕ := (Rat.floor ((q - (Rat.floor q : ℚ)) * 100 + 1 / 2)).toNat
  if numberPart = 0 ∧ decimalPart = 0 then "Zero Rupees Only"
  else
    let rupeesInWords := if 0 < numberPart then rupeesWords numberPart else ""
    let result := if rupeesInWords = "" then "" else capFirst rupeesInWords ++ " Rupees"
    let result2 :=
      if 0 < decimalPart then
        (if result = "" then result else result ++ " and ") ++
          capFirst (convertLessThanOneThousand decimalPart) ++ " Paise"
      else result
    jsTrim result2 ++ " Only"

/-- Embedding of `toWords` (InvoicePreview, lines 359-431).  The negative case
`Minus ${toWords(Math.abs(num))}` recurses once into the finite non-negative
body, which is inlined as `toWordsNonneg` (the absolute value of a finite
number is finite and non-negative). -/
def toWords : JSAmount → String
  | .nan => "Invalid Number"
  | .posInf => "Invalid Number"
  | .negInf => "Invalid Number"
  | .fin q => if q < 0 then "Minus " ++ toWordsNonneg (abs q) else toWordsNonneg q

/-- Rendering of a non-negative finite amount as the (amended) specification
words describe it: the integer part in Indian-grouping words followed by
" Rupees" when it is nonzero, " and <words> Paise" appended when the rounded
subunit count is nonzero (just the Paise clause when the integer part is
zero), everything ending in " Only", and "Zero Rupees Only" when both parts
are zero. -/
def claimRender (q : ℚ) : String :=
  let numberPart : ℕ := (Rat.floor q).toNat
  let decimalPart : ℕ := (Rat.floor ((q - (Rat.floor q : ℚ)) * 100 + 1 / 2)).toNat
  if numberPart = 0 ∧ decimalPart = 0 then "Zero Rupees Only"
  else
    let rupeesClause :=
      if 0 < numberPart then capFirst (rupeesWords numberPart) ++ " Rupees" else ""
    let paiseClause :=
      if 0 < decimalPart then
        (if 0 < numberPart then " and " else "") ++
          capFirst (convertLessThanOneThousand decimalPart) ++ " Paise"
      else ""
    rupeesClause ++ paiseClause ++ " Only"

/-- Hexadecimal value of one character, or `none` when it is not a hex digit;
the code-point ranges are `0`-`9`, `a`-`f` and `A`-`F`. -/
def hexDigitVal (c : Char) : Option ℕ :=
  if 48 ≤ c.toNat ∧ c.toNat ≤ 57 then some (c.toNat - 48)
  else if 97 ≤ c.toNat ∧ c.toNat ≤ 102 then some (c.toNat - 97 + 10)
  else if 65 ≤ c.toNat ∧ c.toNat ≤ 70 then some (c.toNat - 65 + 10)
  else none

/-- Accumulate the value of the longest hex-digit prefix (JS `parseInt` stops
at the first non-digit). -/
def hexAcc : List Char → ℕ → ℕ
  | [], acc => acc
  | c :: cs, acc =>
    match hexDigitVal c with
    | some d => hexAcc cs (16 * acc + d)
    | none => acc

/-- List-level core of the JS `parseInt(s, 16)` model: skip leading whitespace,
read an optional sign, strip an optional `0x`/`0X` prefix, then parse the
longest hex-digit prefix; `none` models the `NaN` result when no digit
follows. -/
def parseIntHexList (l : List Char) : Option ℤ :=
  let l0 := l.dropWhile jsWS
  let sign : ℤ := if l0.head? = some '-' then -1 else 1
  let l1 := if l0.head? = some '-' ∨ l0.head? = some '+' then l0.tail else l0
  let l2 :=
    if l1.head? = some '0' ∧ (l1.tail.head? = some 'x' ∨ l1.tail.head? = some 'X')
    then l1.tail.tail else l1
  match l2.head? with
  | none => none
  | some c =>
    match hexDigitVal c with
    | none => none
    | some _ => some (sign * (hexAcc l2 0 : ℤ))

/-- Model of JS `parseInt(s, 16)`. -/
def parseIntHex (s : String) : Option ℤ :=
  parseIntHexList s.data

/-- Remove the first occurrence of a character, modelling JS
`s.replace('#', '')` (string-pattern `replace` replaces one occurrence). -/
def removeFirstChar : List Char → Char → List Char
  | [], _ => []
  | c :: cs, t => if c = t then cs else c :: removeFirstChar cs t

/-- Model of JS `s.substring(a, b)` for `a ≤ b` within bounds. -/
def jsSubstring (s : String) (a b : ℕ) : String :=
  String.mk ((s.data.drop a).take (b - a))

/-- Embedding of `getContrastColor` (InvoicePreview, lines 433-442).  When any
channel fails to parse the JS code computes a `NaN` luma and `NaN >= 128` is
false, so the result is white — the wildcard branch models that. -/
def getContrastColor (hexColor : String) : String :=
  if hexColor = "" then "#ffffff"
  else
    let hex := String.mk (removeFirstChar hexColor.data '#')
    if hex.length ≠ 6 then "#ffffff"
    else
      match parseIntHex (jsSubstring hex 0 2), parseIntHex (jsSubstring hex 2 4),
          parseIntHex (jsSubstring hex 4 6) with
      | some r, some g, some b =>
        if (128 : ℚ) ≤ ((r : ℚ) * 299 + (g : ℚ) * 587 + (b : ℚ) * 114) / 1000
        then "#000000" else "#ffffff"
      | _, _, _ => "#ffffff"

/-- Numeric value of a hex digit (0 for non-digits); specification-side helper
for stating what "decode 6-hex-digit RGB" means. -/
def hexVal (c : Char) : ℕ :=
  (hexDigitVal c).getD 0

/-- Truth value of "is a hex digit". -/
def isHexDigitChar (c : Char) : Bool :=
  (hexDigitVal c).isSome

/-- Model of JS `n.toString(16)` on a non-negative integer. -/
def natToHexLower (n : ℕ) : String :=
  String.mk (Nat.toDigits 16 n)

/-- Model of JS `s.padStart(2, '0')`. -/
def padStart2 (s : String) : String :=
  String.mk (List.replicate (2 - s.data.length) '0' ++ s.data)

/-- One colour channel of `darkenColor`: `Math.max(0, Math.floor(v * factor))`
re-encoded as two hex digits.  A channel that failed to parse is `NaN` through
`floor` and `max`, and `NaN.toString(16).padStart(2, '0')` is `"NaN"`. -/
def darkenChannel (v : Option ℤ) (factor : ℚ) : String :=
  match v with
  | some r => padStart2 (natToHexLower (max 0 (Rat.floor ((r : ℚ) * factor))).toNat)
  | none => "NaN"

/-- Embedding of `darkenColor` (App, lines 238-251): empty or short input is
returned untouched, otherwise each channel is scaled by `(100 - percent)/100`,
floored, clamped at 0 and re-encoded. -/
def darkenColor (hex : String) (percent : ℚ) : String :=
  if hex = "" ∨ hex.length < 7 then hex
  else
    let rC := parseIntHex (jsSubstring hex 1 3)
    let gC := parseIntHex (jsSubstring hex 3 5)
    let bC := parseIntHex (jsSubstring hex 5 7)
    let factor := (100 - percent) / 100
    "#" ++ darkenChannel rC factor ++ darkenChannel gC factor ++ darkenChannel bC factor

/-- Boolean test: the first character exists and is not whitespace. -/
def headOKb (s : String) : Bool :=
  match s.data.head? with
  | some c => !(jsWS c)
  | none => false

/-- Boolean test: the last character exists and is not whitespace. -/
def lastOKb (s : String) : Bool :=
  match s.data.getLast? with
  | some c => !(jsWS c)
  | none => false

/-- A string is anchored when it is nonempty and keeps a non-whitespace first
character, also after capitalisation; such strings pass through the leading
side of `jsTrim` unchanged. -/
abbrev Anchored (s : String) : Prop :=
  s ≠ "" ∧ headOKb s = true ∧ headOKb (capFirst s) = true

/-! Helper lemmas. -/

/-- The `reduce` in `calculations` computes the sum of quantity times price. -/
theorem foldl_items_sum (l : List Item) (a : ℚ) :
    l.foldl (fun acc item => acc + item.quantity * item.price) a
      = a + (l.map fun item => item.quantity * item.price).sum := by
  induction l generalizing a with
  | nil => simp
  | cons x xs ih => simp [ih, add_assoc]

/-- Characters outside the code points 32, 9, 10, 13 are not `jsWS`. -/
theorem jsWS_eq_false (c : Char)
    (h : ¬ (c.toNat = 32 ∨ c.toNat = 9 ∨ c.toNat = 10 ∨ c.toNat = 13)) :
    jsWS c = false := by
  simp only [jsWS, Bool.or_eq_false_iff, beq_eq_false_iff_ne]
  push_neg at h
  obtain ⟨h1, h2, h3, h4⟩ := h
  refine ⟨⟨⟨?_, ?_⟩, ?_⟩, ?_⟩ <;> intro he <;> subst he <;> simp_all [Char.toNat]

/-- Uppercasing an ASCII lowercase letter subtracts 32 from its code point. -/
theorem toNat_toUpper_of_lower (c : Char) (h1 : 97 ≤ c.toNat) (h2 : c.toNat ≤ 122) :
    c.toUpper.toNat = c.toNat - 32 := by
  have hup : c.toUpper = Char.ofNat (c.toNat - 32) := by
    simp [Char.toUpper, h1, h2]
  rw [hup, Char.ofNat, dif_pos]
  · rfl
  · constructor
    omega

/-- `Char.toUpper` never turns a non-whitespace character into whitespace. -/
theorem jsWS_toUpper (c : Char) (h : jsWS c = false) : jsWS c.toUpper = false := by
  by_cases hc : 97 ≤ c.toNat ∧ c.toNat ≤ 122
  · apply jsWS_eq_false
    rw [toNat_toUpper_of_lower c hc.1 hc.2]
    omega
  · have hup : c.toUpper = c := by
      simp only [Char.toUpper]
      rw [if_neg]
      omega
    rw [hup]
    exact h

/-- `dropWhile` is the identity when the first element fails the predicate. -/
theorem dropWhile_eq_self_of_head (l : List Char) (c : Char) (hh : l.head? = some c)
    (hc : jsWS c = false) : l.dropWhile jsWS = l := by
  cases l with
  | nil => simp at hh
  | cons a t =>
    simp only [List.head?_cons, Option.some.injEq] at hh
    subst hh
    exact List.dropWhile_cons_of_neg (by simp [hc])

/-- A string whose first and last characters exist and are not whitespace is
unchanged by `jsTrim`. -/
theorem jsTrim_eq_self (s : String) (h1 : headOKb s = true) (h2 : lastOKb s = true) :
    jsTrim s = s := by
  rcases hh : s.data.head? with _ | c
  · rw [headOKb, hh] at h1
    simp at h1
  · rcases hl : s.data.getLast? with _ | d
    · rw [lastOKb, hl] at h2
      simp at h2
    · rw [headOKb, hh] at h1
      rw [lastOKb, hl] at h2
      simp only [Bool.not_eq_true'] at h1 h2
      unfold jsTrim trimList
      rw [dropWhile_eq_self_of_head _ _ hh h1,
        dropWhile_eq_self_of_head _ _ (by rw [List.head?_reverse]; exact hl) h2,
        List.reverse_reverse]

/-- A good head survives appending on the right. -/
theorem headOKb_append (a b : String) (h : headOKb a = true) :
    headOKb (a ++ b) = true := by
  rcases hh : a.data.head? with _ | c
  · rw [headOKb, hh] at h
    simp at h
  · rw [headOKb, hh] at h
    rw [headOKb, String.data_append, List.head?_append, hh]
    exact h

/-- A good last character survives appending on the left. -/
theorem lastOKb_append (a b : String) (h : lastOKb b = true) :
    lastOKb (a ++ b) = true := by
  rcases hl : b.data.getLast? with _ | c
  · rw [lastOKb, hl] at h
    simp at h
  · rw [lastOKb, hl] at h
    rw [lastOKb, String.data_append, List.getLast?_append, hl]
    exact h

/-- A string of the shape `w ++ rest` with `w` nonempty is nonempty. -/
theorem append_ne_empty_left (w rest : String) (hw : w ≠ "") : w ++ rest ≠ "" := by
  intro hc
  apply hw
  have := congrArg String.data hc
  rw [String.data_append] at this
  rcases List.append_eq_nil.mp this with ⟨h1, _⟩
  apply String.ext
  rw [h1]

/-- `capFirst` distributes over an append with a nonempty left part. -/
theorem capFirst_append (a b : String) (ha : a ≠ "") :
    capFirst (a ++ b) = capFirst a ++ b := by
  rcases hd : a.data with _ | ⟨c, t⟩
  · exact absurd (String.ext hd) ha
  · unfold capFirst
    rw [String.data_append, hd]
    apply String.ext
    simp

/-- `capFirst` keeps a good head good. -/
theorem headOKb_capFirst (s : String) (h : headOKb s = true) :
    headOKb (capFirst s) = true := by
  rcases hd : s.data with _ | ⟨c, t⟩
  · rw [headOKb, show s.data.head? = none by rw [hd]; rfl] at h
    simp at h
  · rw [headOKb, show s.data.head? = some c by rw [hd]; rfl] at h
    simp only [Bool.not_eq_true'] at h
    unfold capFirst
    rw [hd]
    show headOKb (String.mk (c.toUpper :: t)) = true
    rw [headOKb]
    simp [jsWS_toUpper c h]

/-- Replacing a list entry by an element with the same image under `f` leaves
the mapped list unchanged. -/
theorem set_self_map (f : Item → ℤ) :
    ∀ (l : List Item) (i : ℕ) (h : i < l.length) (x : Item),
      f x = f (l.get ⟨i, h⟩) → (l.map f).set i (f x) = l.map f
  | a :: l, 0, _, x, hx => by simp [hx]
  | a :: l, i + 1, h, x, hx => by
    have := set_self_map f l i (by simpa using h) x hx
    simp only [List.map_cons, List.set_cons_succ, this]
  | [], i, h, x, hx => by simp at h

/-! Claim theorems. -/

/-- C1: for every invoice, the calculation engine yields
`subtotal = Σ quantity * price` over the items, `discountAmount =
subtotal * discountRate / 100`, each of the four tax amounts equal to
`(subtotal - discountAmount) * rate / 100` on the same taxable base,
`taxAmount` their sum, and `total = taxableAmount + taxAmount`; the empty item
list yields subtotal 0, and total 0 when all rates are 0. -/
theorem C1_calculations_spec (inv : Invoice) :
    (calculations inv).subtotal = (inv.items.map fun item => item.quantity * item.price).sum ∧
    (calculations inv).discountAmount = (calculations inv).subtotal * inv.discountRate / 100 ∧
    (calculations inv).cgstAmount =
      ((calculations inv).subtotal - (calculations inv).discountAmount) * inv.cgstRate / 100 ∧
    (calculations inv).sgstAmount =
      ((calculations inv).subtotal - (calculations inv).discountAmount) * inv.sgstRate / 100 ∧
    (calculations inv).igstAmount =
      ((calculations inv).subtotal - (calculations inv).discountAmount) * inv.igstRate / 100 ∧
    (calculations inv).genericTaxAmount =
      ((calculations inv).subtotal - (calculations inv).discountAmount) * inv.taxRate / 100 ∧
    (calculations inv).taxAmount = (calculations inv).cgstAmount + (calculations inv).sgstAmount
      + (calculations inv).igstAmount + (calculations inv).genericTaxAmount ∧
    (calculations inv).total =
      ((calculations inv).subtotal - (calculations inv).discountAmount)
        + (calculations inv).taxAmount ∧
    (inv.items = [] → (calculations inv).subtotal = 0) ∧
    (inv.items = [] ∧ inv.cgstRate = 0 ∧ inv.sgstRate = 0 ∧ inv.igstRate = 0
        ∧ inv.taxRate = 0 ∧ inv.discountRate = 0 →
      (calculations inv).total = 0) := by
  refine ⟨by simp [calculations, foldl_items_sum], (mul_div_assoc _ _ _).symm,
    (mul_div_assoc _ _ _).symm, (mul_div_assoc _ _ _).symm, (mul_div_assoc _ _ _).symm,
    (mul_div_assoc _ _ _).symm, rfl, rfl, ?_, ?_⟩
  · intro h
    simp [calculations, h]
  · rintro ⟨h1, h2, h3, h4, h5, h6⟩
    simp [calculations, h1, h2, h3, h4, h5, h6]

/-- Witness for C1 at the concrete invoice with no items and all rates zero. -/
theorem C1_calculations_spec_witness :
    (calculations { getInitialInvoiceState with items := [] }).subtotal = 0 ∧
    (calculations { getInitialInvoiceState with items := [] }).total = 0 := by
  have h := C1_calculations_spec { getInitialInvoiceState with items := [] }
  exact ⟨h.2.2.2.2.2.2.2.2.1 rfl, h.2.2.2.2.2.2.2.2.2 ⟨rfl, rfl, rfl, rfl, rfl, rfl⟩⟩

/-- C3: loading the draft yields the hard-coded defaults when nothing is stored
or the stored draft fails to parse, and otherwise the shallow merge of the
parsed fields over the defaults with `themeColor` re-set to the default theme
color when the parsed `themeColor` is missing or empty; no exception reaches
the caller (the model is a total function). -/
theorem C3_loadInitialState_spec :
    loadInitialState .absent = getInitialInvoiceState ∧
    loadInitialState .corrupt = getInitialInvoiceState ∧
    ∀ p : PartialInvoice,
      loadInitialState (.parsed p) =
        { mergeOverDefaults getInitialInvoiceState p with
            themeColor :=
              if p.themeColor = none ∨ p.themeColor = some "" then DEFAULT_THEME_COLOR
              else (mergeOverDefaults getInitialInvoiceState p).themeColor } := by
  refine ⟨rfl, rfl, fun p => ?_⟩
  rcases hp : p.themeColor with _ | s
  · simp [loadInitialState, mergeOverDefaults, jsOrString, hp]
  · by_cases hs : s = "" <;>
      simp [loadInitialState, mergeOverDefaults, jsOrString, hp, hs]

/-- C4 fails as stated: if the minted timestamp collides with an existing item
id (two `addItem` calls in the same millisecond), the subsequent `removeItem`
deletes both items instead of restoring the prior sequence. -/
theorem C4_addRemoveRoundtrip_counterexample :
    handleRemoveItem 5 (handleAddItem 5 (handleAddItem 5 getInitialInvoiceState))
      ≠ handleAddItem 5 getInitialInvoiceState :=
  of_decide_eq_true (by with_unfolding_all rfl)

/-- C4 (amended): `addItem` followed by `removeItem` with the freshly minted id
restores the prior state exactly — provided that minted id does not already
occur among the items, which is what the timestamp scheme provides under
normal interactive use. -/
theorem C4_addRemoveRoundtrip_amended (inv : Invoice) (now : ℤ)
    (h : ∀ item ∈ inv.items, item.id ≠ now) :
    handleRemoveItem now (handleAddItem now inv) = inv := by
  unfold handleRemoveItem handleAddItem
  have hfilter : (inv.items ++ [newItemAt now]).filter (fun item => item.id != now)
      = inv.items := by
    rw [List.filter_append]
    have h1 : inv.items.filter (fun item => item.id != now) = inv.items :=
      List.filter_eq_self.mpr (fun a ha => by simpa using h a ha)
    have h2 : [newItemAt now].filter (fun item => item.id != now) = [] := by
      simp [newItemAt]
    rw [h1, h2, List.append_nil]
  simp only
  rw [hfilter]

/-- Witness for C4 (amended) on the initial state with a fresh timestamp. -/
theorem C4_addRemoveRoundtrip_amended_witness :
    handleRemoveItem 2 (handleAddItem 2 getInitialInvoiceState) = getInitialInvoiceState :=
  C4_addRemoveRoundtrip_amended getInitialInvoiceState 2
    (of_decide_eq_true (by with_unfolding_all rfl))

/-- C9: `removeItem` keeps exactly the items whose id differs from the given
id, in their original order (the result is a sublist), and when no item
carries that id the whole invoice is unchanged; the model is total, so no
error occurs. -/
theorem C9_removeItem_spec (inv : Invoice) (targetId : ℤ) :
    List.Sublist (handleRemoveItem targetId inv).items inv.items ∧
    (∀ item : Item,
      item ∈ (handleRemoveItem targetId inv).items ↔ item ∈ inv.items ∧ item.id ≠ targetId) ∧
    ((∀ item ∈ inv.items, item.id ≠ targetId) → handleRemoveItem targetId inv = inv) := by
  refine ⟨List.filter_sublist _, fun item => ?_, fun h => ?_⟩
  · show item ∈ inv.items.filter (fun it => it.id != targetId) ↔ _
    rw [List.mem_filter]
    simp
  · unfold handleRemoveItem
    have h1 : inv.items.filter (fun item => item.id != targetId) = inv.items :=
      List.filter_eq_self.mpr (fun a ha => by simpa using h a ha)
    rw [h1]

/-- Witness for C9 on the initial state and an id no item carries. -/
theorem C9_removeItem_spec_witness :
    handleRemoveItem 2 getInitialInvoiceState = getInitialInvoiceState :=
  (C9_removeItem_spec getInitialInvoiceState 2).2.2
    (of_decide_eq_true (by with_unfolding_all rfl))

/-- C10: `darkenColor` returns its input unchanged, for every percentage,
whenever the input is shorter than 7 characters (in particular when it is
empty); the model is total, so it never throws on such inputs. -/
theorem C10_darkenColor_short_input (hex : String) (percent : ℚ) (h : hex.length < 7) :
    darkenColor hex percent = hex := by
  unfold darkenColor
  rw [if_pos (Or.inr h)]

/-- Witness for C10 on a two-character input. -/
theorem C10_darkenColor_short_input_witness :
    String.length "ab" < 7 ∧ darkenColor "ab" 10 = "ab" :=
  ⟨by decide, C10_darkenColor_short_input "ab" 10 (by decide)⟩

/-- C7: when the invoice number consists only of whitespace characters (in
particular when it is empty), PDF export is rejected before the asynchronous
pipeline starts: the error notice is shown, no file is produced, and the
invoice state is unchanged. -/
theorem C7_downloadPdf_rejects_blank (inv : Invoice) (blobOk : Bool)
    (h : ∀ c ∈ inv.invoiceNumber.data, jsWS c = true) :
    handleDownloadPdf inv blobOk =
      { feedback := some ("Invoice number cannot be empty.", .feedbackError)
        startedPdfGeneration := false
        fileProduced := false
        finalInvoice := inv } := by
  unfold handleDownloadPdf
  rw [if_pos]
  unfold jsTrim trimList
  rw [List.dropWhile_eq_nil_iff.mpr h]
  rfl

/-- Witness for C7 on an invoice whose number is a single space. -/
theorem C7_downloadPdf_rejects_blank_witness :
    handleDownloadPdf { getInitialInvoiceState with invoiceNumber := " " } true =
      { feedback := some ("Invoice number cannot be empty.", .feedbackError)
        startedPdfGeneration := false
        fileProduced := false
        finalInvoice := { getInitialInvoiceState with invoiceNumber := " " } } :=
  C7_downloadPdf_rejects_blank { getInitialInvoiceState with invoiceNumber := " " } true
    (by decide)

/-- One good mutation step preserves pairwise-distinct item ids. -/
theorem goodStep_uniqueIds {l l' : List Item} (h : GoodStep l l') (hu : UniqueIds l) :
    UniqueIds l' := by
  cases h with
  | add now hfresh =>
    unfold UniqueIds at hu ⊢
    rw [List.map_append, List.nodup_append]
    refine ⟨hu, by simp, ?_⟩
    intro a ha hb
    simp only [List.map_cons, List.map_nil, List.mem_singleton] at hb
    subst hb
    obtain ⟨item, hmem, hid⟩ := List.mem_map.1 ha
    exact hfresh item hmem (by rw [hid])
  | remove targetId =>
    exact List.Nodup.sublist (List.Sublist.map _ (List.filter_sublist _)) hu
  | update index updatedItem hlt hid =>
    unfold UniqueIds at hu ⊢
    rw [List.map_set]
    have hrw : (l.map Item.id).set index updatedItem.id = l.map Item.id :=
      set_self_map Item.id l index hlt updatedItem hid
    rw [hrw]
    exact hu

/-- C8 fails as stated: `addItem` only preserves id uniqueness when the minted
timestamp is fresh; two `addItem` calls within the same millisecond (modelled
by the same `now`) produce two items with the same id. -/
theorem C8_uniqueIds_counterexample :
    ¬ UniqueIds ((handleAddItem 5 (handleAddItem 5 getInitialInvoiceState)).items) :=
  of_decide_eq_true (by with_unfolding_all rfl)

/-- C8 (amended): starting from the initial state, the item ids stay pairwise
distinct under every sequence of mutations in which each `addItem` mints a
timestamp different from all current ids, each `updateItem` is in bounds and
keeps the replaced item's id, and `updateField` writes are to fields other
than `items` (those leave the sequence untouched); the items effect of each
handler is as used in the step relation. -/
theorem C8_uniqueIds_amended :
    (∀ l : List Item,
      Relation.ReflTransGen GoodStep getInitialInvoiceState.items l → UniqueIds l) ∧
    (∀ (inv : Invoice) (now : ℤ),
      (handleAddItem now inv).items = inv.items ++ [newItemAt now]) ∧
    (∀ (inv : Invoice) (targetId : ℤ),
      (handleRemoveItem targetId inv).items
        = inv.items.filter (fun item => item.id != targetId)) ∧
    (∀ (inv : Invoice) (index : ℕ) (updatedItem : Item),
      (handleItemChange index updatedItem inv).items = inv.items.set index updatedItem) := by
  refine ⟨fun l h => ?_, fun inv now => rfl, fun inv targetId => rfl,
    fun inv index updatedItem => rfl⟩
  induction h with
  | refl =>
    show UniqueIds getInitialInvoiceState.items
    unfold UniqueIds getInitialInvoiceState
    simp
  | tail _ hstep ih => exact goodStep_uniqueIds hstep ih

/-- Witness for C8 (amended): a fresh `addItem` on the initial state keeps the
ids distinct. -/
theorem C8_uniqueIds_amended_witness :
    UniqueIds ((handleAddItem 2 getInitialInvoiceState).items) := by
  have hstep : GoodStep getInitialInvoiceState.items
      (getInitialInvoiceState.items ++ [newItemAt 2]) :=
    GoodStep.add _ 2 (of_decide_eq_true (by with_unfolding_all rfl))
  exact C8_uniqueIds_amended.1 _ (Relation.ReflTransGen.single hstep)

/-- Code-point bounds carried by a successful `hexDigitVal`. -/
theorem hexDigit_toNat_bounds (c : Char) (d : ℕ) (h : hexDigitVal c = some d) :
    (48 ≤ c.toNat ∧ c.toNat ≤ 57) ∨ (97 ≤ c.toNat ∧ c.toNat ≤ 102)
      ∨ (65 ≤ c.toNat ∧ c.toNat ≤ 70) := by
  unfold hexDigitVal at h
  split at h
  · left
    assumption
  · split at h
    · right
      left
      assumption
    · split at h
      · right
        right
        assumption
      · simp at h

/-- Hex digits are not whitespace. -/
theorem jsWS_of_hexDigitVal (c : Char) (d : ℕ) (h : hexDigitVal c = some d) :
    jsWS c = false := by
  apply jsWS_eq_false
  rcases hexDigit_toNat_bounds c d h with ⟨h1, h2⟩ | ⟨h1, h2⟩ | ⟨h1, h2⟩ <;> omega

/-- A hex digit differs from any character whose code point lies outside the
three digit ranges. -/
theorem hexDigit_ne (c : Char) (d : ℕ) (h : hexDigitVal c = some d) (x : Char)
    (hx : x.toNat < 48 ∨ (57 < x.toNat ∧ x.toNat < 65) ∨ (70 < x.toNat ∧ x.toNat < 97)
      ∨ 102 < x.toNat) :
    c ≠ x := by
  intro he
  subst he
  rcases hexDigit_toNat_bounds c d h with ⟨h1, h2⟩ | ⟨h1, h2⟩ | ⟨h1, h2⟩ <;> omega

/-- `parseInt` with radix 16 on a two-hex-digit string decodes the place-value
number of the two digits. -/
theorem parseIntHexList_two_digits (a b : Char) (da db : ℕ)
    (ha : hexDigitVal a = some da) (hb : hexDigitVal b = some db) :
    parseIntHexList [a, b] = some ((16 * da + db : ℕ) : ℤ) := by
  have hwa : jsWS a = false := jsWS_of_hexDigitVal a da ha
  have hdrop : ([a, b].dropWhile jsWS) = [a, b] :=
    List.dropWhile_cons_of_neg (by simp [hwa])
  have ha1 : ¬ a = '-' := hexDigit_ne a da ha '-' (by decide)
  have ha2 : ¬ a = '+' := hexDigit_ne a da ha '+' (by decide)
  have hb1 : ¬ b = 'x' := hexDigit_ne b db hb 'x' (by decide)
  have hb2 : ¬ b = 'X' := hexDigit_ne b db hb 'X' (by decide)
  simp only [parseIntHexList, hdrop, List.head?_cons, List.tail_cons, Option.some_inj,
    ha1, ha2, hb1, hb2, or_self, if_false, and_false, false_and, or_false, false_or,
    not_false_eq_true, ha, hb, hexAcc]
  push_cast
  ring_nf

/-- C5: `getContrastColor` maps black to white text and white to black text;
every input that is not six characters long after removing the first `#`
yields white; and on six hex digits it decodes the RGB channels and returns
black exactly when the luma `0.299 R + 0.587 G + 0.114 B` reaches 128 (the
model is total, so it never throws). -/
theorem C5_getContrastColor_spec :
    getContrastColor "#000000" = "#ffffff" ∧
    getContrastColor "#FFFFFF" = "#000000" ∧
    (∀ s : String, (removeFirstChar s.data '#').length ≠ 6 →
      getContrastColor s = "#ffffff") ∧
    (∀ (s : String) (c1 c2 c3 c4 c5 c6 : Char),
      removeFirstChar s.data '#' = [c1, c2, c3, c4, c5, c6] →
      (∀ c ∈ [c1, c2, c3, c4, c5, c6], isHexDigitChar c = true) →
      getContrastColor s =
        if (128 : ℚ) ≤
            (299 : ℚ) / 1000 * ((16 * hexVal c1 + hexVal c2 : ℕ) : ℚ)
              + (587 : ℚ) / 1000 * ((16 * hexVal c3 + hexVal c4 : ℕ) : ℚ)
              + (114 : ℚ) / 1000 * ((16 * hexVal c5 + hexVal c6 : ℕ) : ℚ)
        then "#000000" else "#ffffff") := by
  refine ⟨of_decide_eq_true (by with_unfolding_all rfl),
    of_decide_eq_true (by with_unfolding_all rfl), fun s hlen => ?_, ?_⟩
  · simp only [getContrastColor]
    by_cases hs : s = ""
    · rw [if_pos hs]
    · rw [if_neg hs, if_pos]
      exact hlen
  · intro s c1 c2 c3 c4 c5 c6 hdata hhex
    have hs : s ≠ "" := by
      intro h
      subst h
      simp [removeFirstChar] at hdata
    obtain ⟨d1, hd1⟩ := Option.isSome_iff_exists.mp (hhex c1 (by simp))
    obtain ⟨d2, hd2⟩ := Option.isSome_iff_exists.mp (hhex c2 (by simp))
    obtain ⟨d3, hd3⟩ := Option.isSome_iff_exists.mp (hhex c3 (by simp))
    obtain ⟨d4, hd4⟩ := Option.isSome_iff_exists.mp (hhex c4 (by simp))
    obtain ⟨d5, hd5⟩ := Option.isSome_iff_exists.mp (hhex c5 (by simp))
    obtain ⟨d6, hd6⟩ := Option.isSome_iff_exists.mp (hhex c6 (by simp))
    simp only [getContrastColor, hdata]
    rw [if_neg hs, if_neg (show ¬ (String.mk [c1, c2, c3, c4, c5, c6]).length ≠ 6 from
      fun h => h rfl)]
    have hsub1 : parseIntHex (jsSubstring (String.mk [c1, c2, c3, c4, c5, c6]) 0 2)
        = some ((16 * d1 + d2 : ℕ) : ℤ) :=
      parseIntHexList_two_digits c1 c2 d1 d2 hd1 hd2
    have hsub2 : parseIntHex (jsSubstring (String.mk [c1, c2, c3, c4, c5, c6]) 2 4)
        = some ((16 * d3 + d4 : ℕ) : ℤ) :=
      parseIntHexList_two_digits c3 c4 d3 d4 hd3 hd4
    have hsub3 : parseIntHex (jsSubstring (String.mk [c1, c2, c3, c4, c5, c6]) 4 6)
        = some ((16 * d5 + d6 : ℕ) : ℤ) :=
      parseIntHexList_two_digits c5 c6 d5 d6 hd5 hd6
    rw [hsub1, hsub2, hsub3]
    dsimp only
    have hv1 : hexVal c1 = d1 := by rw [hexVal, hd1]; rfl
    have hv2 : hexVal c2 = d2 := by rw [hexVal, hd2]; rfl
    have hv3 : hexVal c3 = d3 := by rw [hexVal, hd3]; rfl
    have hv4 : hexVal c4 = d4 := by rw [hexVal, hd4]; rfl
    have hv5 : hexVal c5 = d5 := by rw [hexVal, hd5]; rfl
    have hv6 : hexVal c6 = d6 := by rw [hexVal, hd6]; rfl
    rw [hv1, hv2, hv3, hv4, hv5, hv6]
    have harith :
        ((((16 * d1 + d2 : ℕ) : ℤ) : ℚ) * 299 + (((16 * d3 + d4 : ℕ) : ℤ) : ℚ) * 587
            + (((16 * d5 + d6 : ℕ) : ℤ) : ℚ) * 114) / 1000
          = (299 : ℚ) / 1000 * ((16 * d1 + d2 : ℕ) : ℚ)
            + (587 : ℚ) / 1000 * ((16 * d3 + d4 : ℕ) : ℚ)
            + (114 : ℚ) / 1000 * ((16 * d5 + d6 : ℕ) : ℚ) := by
      push_cast
      ring
    rw [harith]

/-- Witness for C5: a malformed input and a well-formed six-hex-digit input. -/
theorem C5_getContrastColor_spec_witness :
    getContrastColor "abc" = "#ffffff" ∧
    getContrastColor "#10B981" =
      (if (128 : ℚ) ≤
          (299 : ℚ) / 1000 * ((16 * hexVal '1' + hexVal '0' : ℕ) : ℚ)
            + (587 : ℚ) / 1000 * ((16 * hexVal 'B' + hexVal '9' : ℕ) : ℚ)
            + (114 : ℚ) / 1000 * ((16 * hexVal '8' + hexVal '1' : ℕ) : ℚ)
      then "#000000" else "#ffffff") :=
  ⟨C5_getContrastColor_spec.2.2.1 "abc" (by decide),
   C5_getContrastColor_spec.2.2.2 "#10B981" '1' '0' 'B' '9' '8' '1' (by decide) (by decide)⟩

/-- Appending on the right keeps a string anchored. -/
theorem Anchored.extend {x : String} (h : Anchored x) (y : String) : Anchored (x ++ y) := by
  obtain ⟨hne, hh, hc⟩ := h
  refine ⟨append_ne_empty_left x y hne, headOKb_append x y hh, ?_⟩
  rw [capFirst_append x y hne]
  exact headOKb_append _ y hc

/-- The `ones` table entries at positions 1 and above are anchored (position 20
and beyond yields the JS `"undefined"` rendering, which is also anchored). -/
theorem ones_anchored (k : ℕ) (hk : 1 ≤ k) :
    Anchored (onesWords.getD k "undefined") := by
  by_cases h : k ≤ 19
  · interval_cases k <;> exact ⟨by decide, by decide, by decide⟩
  · rw [List.getD_eq_default]
    · exact ⟨by decide, by decide, by decide⟩
    · have hlen : onesWords.length = 20 := rfl
      omega

/-- The `tens` table entries at positions 2 through 9 are anchored. -/
theorem tens_anchored (k : ℕ) (hk : 2 ≤ k) (hk9 : k ≤ 9) :
    Anchored (tensWords.getD k "undefined") := by
  interval_cases k <;> exact ⟨by decide, by decide, by decide⟩

/-- `convertLessThanOneThousand` of a positive number is anchored. -/
theorem clt_anchored (n : ℕ) (hn : 0 < n) :
    Anchored (convertLessThanOneThousand n) := by
  unfold convertLessThanOneThousand
  by_cases h100 : 100 ≤ n
  · simp only [if_pos h100]
    have hk : 1 ≤ n / 100 := (Nat.one_le_div_iff (by norm_num)).mpr h100
    exact (((ones_anchored (n / 100) hk).extend _).extend _).extend _
  · simp only [if_neg h100]
    rw [String.empty_append]
    rw [if_pos hn]
    by_cases h20 : n < 20
    · rw [if_pos h20]
      exact ones_anchored n hn
    · rw [if_neg h20]
      have h2 : 2 ≤ n / 10 := by omega
      have h9 : n / 10 ≤ 9 := by omega
      exact (tens_anchored (n / 10) h2 h9).extend _

/-- `joinSpace` keeps the anchor of its first element. -/
theorem joinSpace_anchored (s : String) (r : List String) (h : Anchored s) :
    Anchored (joinSpace (s :: r)) := by
  cases r with
  | nil => exact h
  | cons t r => exact (h.extend _).extend _

/-- The rupee grouping of a positive integer part is anchored. -/
theorem rupeesWords_anchored (np : ℕ) (h : 0 < np) :
    Anchored (rupeesWords np) := by
  unfold rupeesWords
  by_cases hc : 0 < np / 10000000
  · simp only [if_pos hc]
    exact joinSpace_anchored _ _ ((clt_anchored _ hc).extend _)
  · simp only [if_neg hc]
    by_cases hl : 0 < np / 100000
    · simp only [if_pos hl]
      exact joinSpace_anchored _ _ ((clt_anchored _ hl).extend _)
    · simp only [if_neg hl]
      by_cases ht : 0 < np / 1000
      · simp only [if_pos ht]
        exact joinSpace_anchored _ _ ((clt_anchored _ ht).extend _)
      · simp only [if_neg ht]
        have hr : 0 < np := h
        rw [if_pos hr]
        exact joinSpace_anchored _ _ (clt_anchored _ hr)

/-- The body of `toWords` for a non-negative finite amount renders exactly as
the (amended) specification sentence describes: the `trim` is the identity
because every assembled clause starts and ends with a non-whitespace
character. -/
theorem toWordsNonneg_eq_claimRender (q : ℚ) : toWordsNonneg q = claimRender q := by
  simp only [toWordsNonneg, claimRender]
  set np := (Rat.floor q).toNat with hnpdef
  set dp := (Rat.floor ((q - (Rat.floor q : ℚ)) * 100 + 1 / 2)).toNat with hdpdef
  by_cases h0 : np = 0 ∧ dp = 0
  · rw [if_pos h0, if_pos h0]
  · rw [if_neg h0, if_neg h0]
    by_cases hnp : 0 < np
    · obtain ⟨hnem, hhead, hcap⟩ := rupeesWords_anchored np hnp
      rw [if_pos hnp, if_neg hnem, if_pos hnp]
      by_cases hdp0 : 0 < dp
      · obtain ⟨hnem2, hhead2, hcap2⟩ := clt_anchored dp hdp0
        have hres_ne : capFirst (rupeesWords np) ++ " Rupees" ≠ "" :=
          append_ne_empty_left _ _ (by
            intro hc
            have := congrArg String.data hc
            rw [capFirst] at this
            rcases hd : (rupeesWords np).data with _ | ⟨c, t⟩
            · exact hnem (String.ext hd)
            · rw [hd] at this
              simp at this)
        rw [if_pos hdp0, if_neg hres_ne, if_pos hdp0, if_pos hnp]
        have ht := jsTrim_eq_self
          (capFirst (rupeesWords np) ++ " Rupees" ++ " and "
            ++ capFirst (convertLessThanOneThousand dp) ++ " Paise")
          (headOKb_append _ _ (headOKb_append _ _ (headOKb_append _ _
            (headOKb_append _ _ hcap))))
          (lastOKb_append _ " Paise" (by decide))
        rw [ht]
        apply String.ext
        simp
      · rw [if_neg hdp0, if_neg hdp0]
        have ht := jsTrim_eq_self (capFirst (rupeesWords np) ++ " Rupees")
          (headOKb_append _ _ hcap) (lastOKb_append _ " Rupees" (by decide))
        rw [ht]
        apply String.ext
        simp
    · have hdp0 : 0 < dp := by
        rcases Nat.eq_zero_or_pos dp with h | h
        · exact absurd ⟨Nat.eq_zero_of_not_pos hnp, h⟩ h0
        · exact h
      rw [if_neg hnp, if_pos rfl, if_pos hdp0, if_pos rfl, if_neg hnp, if_pos hdp0,
        if_neg hnp]
      obtain ⟨hnem2, hhead2, hcap2⟩ := clt_anchored dp hdp0
      rw [String.empty_append, String.empty_append]
      have ht := jsTrim_eq_self (capFirst (convertLessThanOneThousand dp) ++ " Paise")
        (headOKb_append _ _ hcap2) (lastOKb_append _ " Paise" (by decide))
      rw [ht]

/-- C2 (amended): a finite amount is rendered with the integer part in
Indian-grouping words followed by " Rupees" whenever the integer part is
nonzero, with " and <words> Paise" appended when the rounded subunit count is
nonzero (just the capitalised Paise clause when the integer part is zero),
ending in " Only", with "Zero Rupees Only" for zero and a "Minus " prefix on
the rendering of the absolute value for negative amounts. -/
theorem C2_toWords_amended (q : ℚ) :
    toWords (.fin q) = if q < 0 then "Minus " ++ claimRender (abs q) else claimRender q := by
  show (if q < 0 then "Minus " ++ toWordsNonneg (abs q) else toWordsNonneg q) = _
  by_cases h : q < 0
  · rw [if_pos h, if_pos h, toWordsNonneg_eq_claimRender]
  · rw [if_neg h, if_neg h, toWordsNonneg_eq_claimRender]

/-- C2 fails as stated: an amount with zero integer part and nonzero paise,
such as 0.5, is rendered without any Rupees clause at all. -/
theorem C2_toWords_counterexample :
    toWords (.fin (mkRat 1 2)) = "Fifty Paise Only" ∧
    ¬ ("Rupees".data <:+: (toWords (.fin (mkRat 1 2))).data) :=
  ⟨of_decide_eq_true (by with_unfolding_all rfl),
   of_decide_eq_true (by with_unfolding_all rfl)⟩

/-- C6: every non-finite amount (NaN or either infinity) yields the
invalid-amount indication rather than words (and the model is total, so no
exception is thrown); zero yields "Zero Rupees Only"; 100 yields
"One hundred Rupees Only"; and 100.5 contains both a Rupees clause and a
Paise clause. -/
theorem C6_toWords_sanity :
    (∀ a : JSAmount, a.isFiniteAmt = false → toWords a = "Invalid Number") ∧
    toWords (.fin 0) = "Zero Rupees Only" ∧
    toWords (.fin 100) = "One hundred Rupees Only" ∧
    ("Rupees".data <:+: (toWords (.fin (mkRat 201 2))).data) ∧
    ("Paise".data <:+: (toWords (.fin (mkRat 201 2))).data) := by
  refine ⟨fun a ha => ?_, of_decide_eq_true (by with_unfolding_all rfl),
    of_decide_eq_true (by with_unfolding_all rfl),
    of_decide_eq_true (by with_unfolding_all rfl),
    of_decide_eq_true (by with_unfolding_all rfl)⟩
  cases a with
  | nan => rfl
  | posInf => rfl
  | negInf => rfl
  | fin q => simp [JSAmount.isFiniteAmt] at ha

/-- Witness for C6 at the non-finite amount NaN. -/
theorem C6_toWords_sanity_witness :
    JSAmount.isFiniteAmt .nan = false ∧ toWords .nan = "Invalid Number" :=
  ⟨rfl, C6_toWords_sanity.1 .nan rfl⟩

end Sayinvoice
